import Mathlib

/-!
# Verification of the quddix storefront persistence and session-synchronization core

Shallow embedding of the client-side persistence engine in `src/types.ts`
(the `App` component): the three localStorage blobs (`SESSION`, `USERS_DB`,
`GUEST_CART`), the `persistUser` helper, the initialization effect
(Self-Healing Resolver), `addToCart`, `removeFromCart`, `processOrder`
and `handleLogin`.

Modelling conventions:
* JavaScript numbers are modelled as rationals (`ℚ`); the prices exercised
  here (integers and halves) are exact in binary floating point, so the
  model agrees with the code on every value the claims mention.
* A stored text blob either parses to a structured value (`Blob.ok v`,
  `JSON.parse` succeeds and yields `v`) or is syntactically corrupt
  (`Blob.corrupt`, `JSON.parse` throws).  `localStorage.getItem` returning
  `null` is `Option.none` at the storage layer.
* A JavaScript object used as a string-keyed map (`db` in the code) is an
  association list with unique keys in insertion order; `db[k]` is
  `lookupKey`, `db[k] = v` is `setKey` (overwrite in place, else append).
* An event handler that can throw (because `JSON.parse` of a corrupt
  directory blob throws mid-handler) returns `Except AppState AppState`:
  `.ok s` is normal completion, `.error s` is the state at the moment the
  exception escaped (updates already performed are kept, as React/DOM do).
* `Math.random()`-generated order ids and `new Date()` timestamps are
  oracle parameters of `processOrder`.
-/

/-- Order status, from the union type `'processing' | 'shipped' | 'delivered'`. -/
inductive OrderStatus where
  | processing
  | shipped
  | delivered
  deriving DecidableEq, Repr

/-- `Product` from `src/types.ts`: catalog line item. -/
structure Product where
  id : String
  name : String
  price : ℚ
  displayPrice : String
  category : String
  description : Option String := none
  image : Option String := none
  deriving DecidableEq, Repr

/-- `DeliveryDetails` from `src/types.ts`. -/
structure DeliveryDetails where
  fullName : String
  email : String
  phone : String
  address : String
  city : String
  zip : String
  deriving DecidableEq, Repr

/-- `Order` from `src/types.ts`. -/
structure Order where
  id : String
  date : String
  items : List Product
  total : ℚ
  status : OrderStatus
  delivery : Option DeliveryDetails := none
  deriving DecidableEq, Repr

/-- `User` from `src/types.ts`. -/
structure User where
  name : String
  email : String
  password : Option String := none
  cart : List Product
  orders : List Order
  deriving DecidableEq, Repr

/-- JavaScript `String.prototype.toLowerCase` on one character
(ASCII range, which is all the code's email keys use). -/
def jsCharToLower (c : Char) : Char :=
  if 65 ≤ c.toNat ∧ c.toNat ≤ 90 then Char.ofNat (c.toNat + 32) else c

/-- JavaScript `String.prototype.toLowerCase`: lower each character. -/
def jsToLower (s : String) : String :=
  ⟨s.data.map jsCharToLower⟩

theorem char_toNat_ofNat {n : Nat} (h : n.isValidChar) : (Char.ofNat n).toNat = n := by
  unfold Char.ofNat
  rw [dif_pos h]
  rfl

theorem jsCharToLower_idem (c : Char) :
    jsCharToLower (jsCharToLower c) = jsCharToLower c := by
  by_cases h : 65 ≤ c.toNat ∧ c.toNat ≤ 90
  · have hv : (c.toNat + 32).isValidChar := Or.inl (by omega)
    have ht : (Char.ofNat (c.toNat + 32)).toNat = c.toNat + 32 := char_toNat_ofNat hv
    have h1 : jsCharToLower c = Char.ofNat (c.toNat + 32) := by
      unfold jsCharToLower
      rw [if_pos h]
    rw [h1]
    unfold jsCharToLower
    rw [if_neg (by rw [ht]; omega)]
  · have h1 : jsCharToLower c = c := by
      unfold jsCharToLower
      rw [if_neg h]
    rw [h1, h1]

theorem jsToLower_idem (s : String) : jsToLower (jsToLower s) = jsToLower s := by
  show String.mk (List.map jsCharToLower (List.map jsCharToLower s.data)) =
    String.mk (List.map jsCharToLower s.data)
  rw [List.map_map]
  exact congrArg String.mk (List.map_congr_left fun c _ => jsCharToLower_idem c)

example : jsToLower "Alice@X.com" = "alice@x.com" := by decide

/-! ## The User Directory as a JavaScript object (string-keyed map) -/

/-- `USERS_DB` decoded: a JavaScript object mapping email keys to `User`
records, modelled as an association list with unique keys in insertion
order. -/
abbrev Db : Type := List (String × User)

/-- JavaScript property read `db[k]` (for present keys). -/
def lookupKey : Db → String → Option User
  | [], _ => none
  | (k, v) :: rest, key => if k = key then some v else lookupKey rest key

/-- JavaScript property write `db[k] = v`: overwrite in place if the key
exists, otherwise append (JS objects keep string keys in insertion order). -/
def setKey : Db → String → User → Db
  | [], key, v => [(key, v)]
  | (k, w) :: rest, key, v =>
      if k = key then (key, v) :: rest else (k, w) :: setKey rest key v

/-- The lookup `db[email] || db[email.toLowerCase()]` used by the
initialization effect (line 115) and by `handleLogin` (line 232). -/
def dbLookup (db : Db) (email : String) : Option User :=
  (lookupKey db email).or (lookupKey db (jsToLower email))

theorem lookupKey_setKey_self (db : Db) (k : String) (v : User) :
    lookupKey (setKey db k v) k = some v := by
  induction db with
  | nil => simp [setKey, lookupKey]
  | cons hd tl ih =>
      obtain ⟨k0, v0⟩ := hd
      by_cases h : k0 = k
      · simp [setKey, h, lookupKey]
      · simp [setKey, h, lookupKey, ih]

theorem lookupKey_setKey_ne (db : Db) (k k' : String) (v : User) (h : k' ≠ k) :
    lookupKey (setKey db k v) k' = lookupKey db k' := by
  have hk : k ≠ k' := fun he => h he.symm
  induction db with
  | nil => simp [setKey, lookupKey, hk]
  | cons hd tl ih =>
      obtain ⟨k0, v0⟩ := hd
      by_cases h0 : k0 = k
      · subst h0
        simp [setKey, lookupKey, hk]
      · by_cases h1 : k0 = k'
        · simp [setKey, h0, lookupKey, h1, h, hk]
        · simp [setKey, h0, lookupKey, h1, h, hk, ih]

theorem lookupKey_eq_none (db : Db) (k : String)
    (h : ∀ p ∈ db, p.1 ≠ k) : lookupKey db k = none := by
  induction db with
  | nil => rfl
  | cons hd tl ih =>
      obtain ⟨k0, v0⟩ := hd
      have hk0 : k0 ≠ k := h (k0, v0) (List.mem_cons_self _ _)
      simp only [lookupKey, if_neg hk0]
      exact ih fun p hp => h p (List.mem_cons_of_mem _ hp)

/-- If no stored key matches the email even case-insensitively, both probes
of `dbLookup` miss. -/
theorem dbLookup_eq_none (db : Db) (email : String)
    (h : ∀ p ∈ db, p.1 ≠ email ∧ jsToLower p.1 ≠ jsToLower email) :
    dbLookup db email = none := by
  have h1 : lookupKey db email = none :=
    lookupKey_eq_none db email fun p hp => (h p hp).1
  have h2 : lookupKey db (jsToLower email) = none := by
    refine lookupKey_eq_none db (jsToLower email) fun p hp hpe => ?_
    have := (h p hp).2
    rw [hpe, jsToLower_idem] at this
    exact this rfl
  simp [dbLookup, h1, h2]

/-! ## Storage blobs and application state -/

/-- A persisted text blob, seen through `JSON.parse`: either it parses to
the structured value `v` (`ok v`) or it is syntactically invalid and
`JSON.parse` throws (`corrupt`). -/
inductive Blob (α : Type) where
  | ok (v : α)
  | corrupt
  deriving DecidableEq, Repr

/-- The three localStorage keys of `STORAGE_KEYS` (lines 65-69); `none` is
an absent key (`getItem` returns `null`). -/
structure Storage where
  session : Option (Blob User)
  usersDb : Option (Blob Db)
  guestCart : Option (Blob (List Product))
  deriving DecidableEq, Repr

/-- The `App` component state: the React `useState` slots together with the
persisted storage. -/
structure AppState where
  isCatalogOpen : Bool := false
  isCartOpen : Bool := false
  isAuthOpen : Bool := false
  isProfileOpen : Bool := false
  isCheckoutOpen : Bool := false
  cartItems : List Product := []
  user : Option User := none
  storage : Storage
  deriving DecidableEq, Repr

/-- `const db = dbStr ? JSON.parse(dbStr) : {}` — an absent `USERS_DB` blob
is an empty object, a corrupt one makes `JSON.parse` throw (`none` here). -/
def readDbBlob : Option (Blob Db) → Option Db
  | none => some []
  | some (Blob.ok db) => some db
  | some Blob.corrupt => none

/-! ## The event handlers of the `App` component -/

/-- `persistUser` (lines 82-94): set the React `user` state, write the
`SESSION` blob, then read `USERS_DB`, set `db[updatedUser.email]` and write
it back.  If the stored `USERS_DB` blob is corrupt, `JSON.parse(dbStr)`
throws after the session write: the `.error` state keeps the updates made
before the throw. -/
def persistUser (updatedUser : User) (s : AppState) : Except AppState AppState :=
  let s1 := { s with
    user := some updatedUser,
    storage := { s.storage with session := some (Blob.ok updatedUser) } }
  match readDbBlob s.storage.usersDb with
  | none => .error s1
  | some db => .ok { s1 with
      storage := { s1.storage with
        usersDb := some (Blob.ok (setKey db updatedUser.email updatedUser)) } }

/-- The initialization `useEffect` (lines 102-147): restore the session,
re-validate it against `USERS_DB` (exact then lowercased-email lookup),
self-heal a missing directory entry from the session, or — with no
session — load the guest cart.  The `try` block spans both `JSON.parse`
calls, so a corrupt `USERS_DB` also lands in the `catch`, which removes
`SESSION`. -/
def initApp (s : AppState) : AppState :=
  match s.storage.session with
  | some (Blob.ok sessionUser) =>
      match readDbBlob s.storage.usersDb with
      | none =>
          -- JSON.parse(dbStr) threw inside the try: catch removes SESSION
          { s with storage := { s.storage with session := none } }
      | some db =>
          match dbLookup db sessionUser.email with
          | some freshUser =>
              { s with user := some freshUser, cartItems := freshUser.cart }
          | none =>
              -- SELF-HEALING: repair the DB from the session, then activate
              { s with
                storage := { s.storage with
                  usersDb :=
                    some (Blob.ok (setKey db sessionUser.email sessionUser)) },
                user := some sessionUser,
                cartItems := sessionUser.cart }
  | some Blob.corrupt =>
      -- JSON.parse(sessionStr) threw: catch removes SESSION
      { s with storage := { s.storage with session := none } }
  | none =>
      match s.storage.guestCart with
      | some (Blob.ok items) => { s with cartItems := items }
      | _ => s

/-- `addToCart` (lines 156-172): append the product, persist through
`persistUser` (signed in) or the guest-cart blob (anonymous), open the
cart drawer. -/
def addToCart (product : Product) (s : AppState) : Except AppState AppState :=
  let newCart := s.cartItems ++ [product]
  let s0 := { s with cartItems := newCart }
  match s.user with
  | some u =>
      match persistUser { u with cart := newCart } s0 with
      | .error s1 => .error s1
      | .ok s1 => .ok { s1 with isCartOpen := true }
  | none =>
      .ok { s0 with
        storage := { s0.storage with guestCart := some (Blob.ok newCart) },
        isCartOpen := true }

/-- `removeFromCart` (lines 175-184): keep only the entries whose `id`
differs from the argument, then persist like `addToCart`. -/
def removeFromCart (id : String) (s : AppState) : Except AppState AppState :=
  let newCart := s.cartItems.filter (fun item => item.id ≠ id)
  let s0 := { s with cartItems := newCart }
  match s.user with
  | some u =>
      match persistUser { u with cart := newCart } s0 with
      | .error s1 => .error s1
      | .ok s1 => .ok s1
  | none =>
      .ok { s0 with
        storage := { s0.storage with guestCart := some (Blob.ok newCart) } }

/-- The `newOrder` literal of `processOrder` (lines 196-203); the random id
and the current time are oracle parameters. -/
def mkOrder (oid odate : String) (cartItems : List Product)
    (deliveryDetails : DeliveryDetails) : Order :=
  { id := oid,
    date := odate,
    items := cartItems,
    total := cartItems.foldl (fun acc item => acc + item.price) 0,
    status := OrderStatus.processing,
    delivery := some deliveryDetails }

/-- `processOrder` (lines 193-223): early-return on an empty cart;
otherwise build the order and either append it to the signed-in user's
history (clearing the persisted cart) or, for a guest, clear the guest
cart without retaining any order. -/
def processOrder (oid odate : String) (deliveryDetails : DeliveryDetails)
    (s : AppState) : Except AppState AppState :=
  if s.cartItems = [] then .ok s
  else
    let newOrder := mkOrder oid odate s.cartItems deliveryDetails
    match s.user with
    | some u =>
        let updatedUser : User :=
          { u with orders := u.orders ++ [newOrder], cart := [] }
        match persistUser updatedUser s with
        | .error s1 => .error s1
        | .ok s1 => .ok { s1 with
            isProfileOpen := true, isCheckoutOpen := false, cartItems := [] }
    | none =>
        .ok { s with
          cartItems := [],
          storage := { s.storage with guestCart := none },
          isCheckoutOpen := false }

/-- `handleLogin` (lines 226-252): re-read `USERS_DB`, look the
authenticated user's email up (exact, then lowercased, then fall back to
the record from the auth step), concatenate the stored cart with the
pre-login live cart, persist everywhere and remove the guest-cart blob. -/
def handleLogin (userFromAuth : User) (s : AppState) : Except AppState AppState :=
  match readDbBlob s.storage.usersDb with
  | none => .error s   -- JSON.parse(dbStr) threw before any state change
  | some db =>
      let freshUser := (dbLookup db userFromAuth.email).getD userFromAuth
      let mergedCart := freshUser.cart ++ s.cartItems
      let updatedUser := { freshUser with cart := mergedCart }
      match persistUser updatedUser s with
      | .error s1 => .error s1
      | .ok s1 => .ok { s1 with
          cartItems := mergedCart,
          storage := { s1.storage with guestCart := none },
          isAuthOpen := false }

/-! ## Concrete sample data for witnesses -/

/-- Sample catalog products. -/
def prodOne : Product :=
  { id := "p1", name := "Raven panel", price := 10,
    displayPrice := "10", category := "panel" }

def prodTwo : Product :=
  { id := "p2", name := "Bear figure", price := 51/2,
    displayPrice := "25.50", category := "figure" }

def prodThree : Product :=
  { id := "p3", name := "Oak spoon", price := 7,
    displayPrice := "7", category := "utensil" }

def aliceUser : User :=
  { name := "Alice", email := "alice@x.com", cart := [prodOne, prodTwo],
    orders := [] }

def bobUser : User :=
  { name := "Bob", email := "bob@y.com", cart := [prodThree], orders := [] }

def sampleDelivery : DeliveryDetails :=
  { fullName := "Alice A", email := "alice@x.com", phone := "1",
    address := "Street 1", city := "Town", zip := "00001" }

/-- C1: `handleLogin` merges the account cart followed by the pre-login
live cart, with no deduplication; the merged cart becomes the live cart,
the `SESSION` snapshot's cart and the `USERS_DB` entry's cart, and the
`GUEST_CART` key is removed. -/
theorem C1_login_merge (s : AppState) (db : Db) (userFromAuth acct : User)
    (hdb : readDbBlob s.storage.usersDb = some db)
    (hacct : dbLookup db userFromAuth.email = some acct) :
    ∃ s', handleLogin userFromAuth s = .ok s' ∧
      s'.cartItems = acct.cart ++ s.cartItems ∧
      s'.user = some { acct with cart := acct.cart ++ s.cartItems } ∧
      s'.storage.session =
        some (Blob.ok { acct with cart := acct.cart ++ s.cartItems }) ∧
      (∃ db', s'.storage.usersDb = some (Blob.ok db') ∧
        lookupKey db' acct.email =
          some { acct with cart := acct.cart ++ s.cartItems }) ∧
      s'.storage.guestCart = none := by
  have key : handleLogin userFromAuth s = .ok
      { s with
        user := some { acct with cart := acct.cart ++ s.cartItems },
        cartItems := acct.cart ++ s.cartItems,
        isAuthOpen := false,
        storage := { s.storage with
          session := some (Blob.ok { acct with cart := acct.cart ++ s.cartItems }),
          usersDb := some (Blob.ok (setKey db acct.email
            { acct with cart := acct.cart ++ s.cartItems })),
          guestCart := none } } := by
    simp only [handleLogin, hdb, hacct, Option.getD_some, persistUser]
  exact ⟨_, key, rfl, rfl, rfl,
    ⟨_, rfl, lookupKey_setKey_self db acct.email _⟩, rfl⟩

/-- Pre-login state for the C1 scenario: account cart A = [p1, p2] stored
in the directory, live guest cart G = [p2, p3]. -/
def loginStartState : AppState :=
  { cartItems := [prodTwo, prodThree],
    user := none,
    storage := { session := none,
                 usersDb := some (Blob.ok [("alice@x.com", aliceUser)]),
                 guestCart := some (Blob.ok [prodTwo, prodThree]) } }

theorem C1_login_merge_witness :
    readDbBlob loginStartState.storage.usersDb =
      some [("alice@x.com", aliceUser)] ∧
    dbLookup [("alice@x.com", aliceUser)] aliceUser.email = some aliceUser ∧
    aliceUser.cart ++ loginStartState.cartItems =
      [prodOne, prodTwo, prodTwo, prodThree] ∧
    (aliceUser.cart ++ loginStartState.cartItems).length = 4 ∧
    (aliceUser.cart ++ loginStartState.cartItems).count prodTwo = 2 ∧
    prodTwo ≠ prodOne ∧ prodTwo ≠ prodThree ∧
    (∃ s', handleLogin aliceUser loginStartState = .ok s' ∧
      s'.cartItems = aliceUser.cart ++ loginStartState.cartItems ∧
      s'.user =
        some { aliceUser with cart :=
          aliceUser.cart ++ loginStartState.cartItems } ∧
      s'.storage.session =
        some (Blob.ok { aliceUser with cart :=
          aliceUser.cart ++ loginStartState.cartItems }) ∧
      (∃ db', s'.storage.usersDb = some (Blob.ok db') ∧
        lookupKey db' aliceUser.email =
          some { aliceUser with cart :=
            aliceUser.cart ++ loginStartState.cartItems }) ∧
      s'.storage.guestCart = none) :=
  ⟨rfl, rfl, rfl, rfl,
    by simp [List.count_cons, prodOne, prodTwo, prodThree, aliceUser,
      loginStartState, Product.mk.injEq],
    by simp [prodOne, prodTwo, Product.mk.injEq],
    by simp [prodTwo, prodThree, Product.mk.injEq],
    C1_login_merge loginStartState [("alice@x.com", aliceUser)]
      aliceUser aliceUser rfl rfl⟩

/-- C2: the Self-Healing Resolver, run on a well-formed Session snapshot
whose email has no Directory entry (exact or case-insensitive), writes the
snapshot into the Directory under its own email and activates it. -/
theorem C2_self_healing (s : AppState) (sessionUser : User) (db : Db)
    (hs : s.storage.session = some (Blob.ok sessionUser))
    (hdb : readDbBlob s.storage.usersDb = some db)
    (hmiss : ∀ p ∈ db, p.1 ≠ sessionUser.email ∧
      jsToLower p.1 ≠ jsToLower sessionUser.email) :
    ∃ db', (initApp s).storage.usersDb = some (Blob.ok db') ∧
      lookupKey db' sessionUser.email = some sessionUser ∧
      (initApp s).user = some sessionUser ∧
      (initApp s).cartItems = sessionUser.cart := by
  have hlook := dbLookup_eq_none db sessionUser.email hmiss
  have key : initApp s =
      { s with
        storage := { s.storage with
          usersDb := some (Blob.ok (setKey db sessionUser.email sessionUser)) },
        user := some sessionUser,
        cartItems := sessionUser.cart } := by
    simp only [initApp, hs, hdb, hlook]
  rw [key]
  exact ⟨_, rfl, lookupKey_setKey_self db sessionUser.email sessionUser, rfl, rfl⟩

/-- Startup state for the C2 scenario: valid Session for `alice@x.com`,
empty Directory. -/
def healStartState : AppState :=
  { storage := { session := some (Blob.ok aliceUser),
                 usersDb := none,
                 guestCart := none } }

theorem C2_self_healing_witness :
    healStartState.storage.session = some (Blob.ok aliceUser) ∧
    readDbBlob healStartState.storage.usersDb = some [] ∧
    (∃ db', (initApp healStartState).storage.usersDb = some (Blob.ok db') ∧
      lookupKey db' aliceUser.email = some aliceUser ∧
      (initApp healStartState).user = some aliceUser ∧
      (initApp healStartState).cartItems = aliceUser.cart) :=
  ⟨rfl, rfl,
    C2_self_healing healStartState aliceUser [] rfl rfl (by simp)⟩

/-- C3 counterexample: the Directory holds the key `Alice@X.com`, yet
looking up `alice@x.com` — as the startup restore and `handleLogin` both
do — returns nothing: the code lowercases only the *queried* email and
never the stored keys, so a mixed-case stored key is unreachable from a
differently-cased query. -/
theorem C3_mixed_case_key_not_found :
    dbLookup [("Alice@X.com", aliceUser)] "alice@x.com" = none ∧
    dbLookup [("Alice@X.com", aliceUser)] "alice@x.com" ≠ some aliceUser := by
  constructor
  · rfl
  · intro h
    cases h

/-- C3 amended: the lookup tries the exact key first; on a miss it probes
the single key equal to the *lowercased queried email*.  A stored key that
differs from the query only by case is found exactly when the stored key
is the fully-lowercased form, never when the stored key itself is
mixed-case. -/
theorem C3_lookup_exact_then_lowered_query (db : Db) (email : String) :
    (∀ u, lookupKey db email = some u → dbLookup db email = some u) ∧
    (lookupKey db email = none →
      dbLookup db email = lookupKey db (jsToLower email)) := by
  constructor
  · intro u hu
    simp [dbLookup, hu]
  · intro h
    simp [dbLookup, h]

theorem C3_lookup_exact_then_lowered_query_witness :
    dbLookup [("alice@x.com", aliceUser)] "Alice@X.com" = some aliceUser := by
  have h :=
    (C3_lookup_exact_then_lowered_query [("alice@x.com", aliceUser)]
      "Alice@X.com").2 rfl
  rw [h]
  rfl

/-- State at application start for C4: a perfectly valid `SESSION` blob for
Alice next to a syntactically corrupt `USERS_DB` blob. -/
def corruptDbState : AppState :=
  { storage := { session := some (Blob.ok aliceUser),
                 usersDb := some Blob.corrupt,
                 guestCart := none } }

/-- C4: what the code actually does on a corrupt `USERS_DB`.  At startup
the `try` block of the initialization effect also covers
`JSON.parse(dbStr)`, so the corrupt Directory lands in the `catch`, which
removes `SESSION` and leaves the app signed out — the Directory is *not*
treated as empty and the Session *is* cleared.  `persistUser` and
`handleLogin` likewise throw out of `JSON.parse` instead of proceeding
(for `persistUser`, after the Session write). -/
theorem C4_corrupt_directory_behavior :
    (initApp corruptDbState).storage.session = none ∧
    (initApp corruptDbState).user = none ∧
    (initApp corruptDbState).cartItems = [] ∧
    persistUser aliceUser corruptDbState =
      .error { corruptDbState with
        user := some aliceUser,
        storage := { corruptDbState.storage with
          session := some (Blob.ok aliceUser) } } ∧
    handleLogin aliceUser corruptDbState = .error corruptDbState :=
  ⟨rfl, rfl, rfl, rfl, rfl⟩

/-! ## C5: Session snapshot and Directory entry written together -/

/-- The state of a signed-in user is in sync: the live account, the
`SESSION` snapshot, and the `USERS_DB` entry under the account's email all
hold the same record. -/
def sessionDbSync (s : AppState) : Prop :=
  ∃ u, s.user = some u ∧
    s.storage.session = some (Blob.ok u) ∧
    ∃ db, s.storage.usersDb = some (Blob.ok db) ∧
      lookupKey db u.email = some u

/-- C5: every completed cart/order mutation of a signed-in user —
`addToCart`, `removeFromCart`, a non-empty-cart `processOrder`, and the
`handleLogin` merge — writes both the Session snapshot and the Directory
entry keyed by the user's email in the same handler, leaving them equal. -/
theorem C5_dual_write (s : AppState) (u : User) (hu : s.user = some u) :
    (∀ p s', addToCart p s = .ok s' → sessionDbSync s') ∧
    (∀ pid s', removeFromCart pid s = .ok s' → sessionDbSync s') ∧
    (∀ oid odate dd s', s.cartItems ≠ [] →
      processOrder oid odate dd s = .ok s' → sessionDbSync s') ∧
    (∀ ua s', handleLogin ua s = .ok s' → sessionDbSync s') := by
  refine ⟨?_, ?_, ?_, ?_⟩
  · intro p s' h
    cases hdb : readDbBlob s.storage.usersDb with
    | none => simp [addToCart, hu, persistUser, hdb] at h
    | some db =>
        simp only [addToCart, hu, persistUser, hdb, Except.ok.injEq] at h
        subst h
        exact ⟨_, rfl, rfl, _, rfl, lookupKey_setKey_self db _ _⟩
  · intro pid s' h
    cases hdb : readDbBlob s.storage.usersDb with
    | none => simp [removeFromCart, hu, persistUser, hdb] at h
    | some db =>
        simp only [removeFromCart, hu, persistUser, hdb, Except.ok.injEq] at h
        subst h
        exact ⟨_, rfl, rfl, _, rfl, lookupKey_setKey_self db _ _⟩
  · intro oid odate dd s' hc h
    cases hdb : readDbBlob s.storage.usersDb with
    | none => simp [processOrder, if_neg hc, hu, persistUser, hdb] at h
    | some db =>
        simp only [processOrder, if_neg hc, hu, persistUser, hdb,
          Except.ok.injEq] at h
        subst h
        exact ⟨_, rfl, rfl, _, rfl, lookupKey_setKey_self db _ _⟩
  · intro ua s' h
    cases hdb : readDbBlob s.storage.usersDb with
    | none => simp [handleLogin, hdb] at h
    | some db =>
        simp only [handleLogin, hdb, persistUser, Except.ok.injEq] at h
        subst h
        exact ⟨_, rfl, rfl, _, rfl, lookupKey_setKey_self db _ _⟩

/-- Signed-in state used by several witnesses: Alice active with her cart
live, Session and Directory in sync, Bob also in the Directory. -/
def signedInState : AppState :=
  { cartItems := aliceUser.cart,
    user := some aliceUser,
    storage := { session := some (Blob.ok aliceUser),
                 usersDb := some (Blob.ok
                   [("alice@x.com", aliceUser), ("bob@y.com", bobUser)]),
                 guestCart := none } }

/-- The state after `addToCart prodThree signedInState`, written out. -/
def afterAddState : AppState :=
  { cartItems := aliceUser.cart ++ [prodThree],
    user := some { aliceUser with cart := aliceUser.cart ++ [prodThree] },
    isCartOpen := true,
    storage := { session := some (Blob.ok
                   { aliceUser with cart := aliceUser.cart ++ [prodThree] }),
                 usersDb := some (Blob.ok
                   [("alice@x.com",
                     { aliceUser with cart := aliceUser.cart ++ [prodThree] }),
                    ("bob@y.com", bobUser)]),
                 guestCart := none } }

theorem C5_dual_write_witness :
    signedInState.user = some aliceUser ∧
    addToCart prodThree signedInState = .ok afterAddState ∧
    sessionDbSync afterAddState :=
  ⟨rfl, rfl,
    (C5_dual_write signedInState aliceUser rfl).1 prodThree afterAddState rfl⟩

/-- `reduce((acc, item) => acc + item.price, 0)` is the sum of the prices. -/
theorem foldl_add_price (l : List Product) (a : ℚ) :
    l.foldl (fun acc item => acc + item.price) a =
      a + (l.map Product.price).sum := by
  induction l generalizing a with
  | nil => simp
  | cons hd tl ih => simp [ih, add_assoc]

/-- C6: the Order built by checkout copies the cart verbatim, totals the
item prices, is `processing`, carries the given DeliveryDetails and the
fresh id/timestamp; for a signed-in user `processOrder` appends exactly
this Order to the history. -/
theorem C6_order_contents (oid odate : String) (dd : DeliveryDetails)
    (s : AppState) (hc : s.cartItems ≠ []) :
    (mkOrder oid odate s.cartItems dd).items = s.cartItems ∧
    (mkOrder oid odate s.cartItems dd).total =
      (s.cartItems.map Product.price).sum ∧
    (mkOrder oid odate s.cartItems dd).status = OrderStatus.processing ∧
    (mkOrder oid odate s.cartItems dd).delivery = some dd ∧
    (mkOrder oid odate s.cartItems dd).id = oid ∧
    (mkOrder oid odate s.cartItems dd).date = odate ∧
    (∀ u, s.user = some u → ∀ s', processOrder oid odate dd s = .ok s' →
      ∃ u', s'.user = some u' ∧
        u'.orders = u.orders ++ [mkOrder oid odate s.cartItems dd]) := by
  refine ⟨rfl, ?_, rfl, rfl, rfl, rfl, ?_⟩
  · show s.cartItems.foldl (fun acc item => acc + item.price) 0 = _
    rw [foldl_add_price]
    exact zero_add _
  · intro u hu s' h
    cases hdb : readDbBlob s.storage.usersDb with
    | none => simp [processOrder, if_neg hc, hu, persistUser, hdb] at h
    | some db =>
        simp only [processOrder, if_neg hc, hu, persistUser, hdb,
          Except.ok.injEq] at h
        subst h
        exact ⟨_, rfl, rfl⟩

/-- Guest state with the C6 cart [{price 10}, {price 25.5}]. -/
def guestCheckoutState : AppState :=
  { cartItems := [prodOne, prodTwo],
    storage := { session := none, usersDb := none,
                 guestCart := some (Blob.ok [prodOne, prodTwo]) } }

theorem C6_order_contents_witness :
    guestCheckoutState.cartItems ≠ [] ∧
    (mkOrder "ORD1" "2026-01-01T00:00:00Z" guestCheckoutState.cartItems
      sampleDelivery).total = 35.5 ∧
    (mkOrder "ORD1" "2026-01-01T00:00:00Z" guestCheckoutState.cartItems
      sampleDelivery).items.length = 2 := by
  have h := C6_order_contents "ORD1" "2026-01-01T00:00:00Z" sampleDelivery
    guestCheckoutState (by simp [guestCheckoutState])
  refine ⟨by simp [guestCheckoutState], ?_, ?_⟩
  · rw [h.2.1]
    norm_num [guestCheckoutState, prodOne, prodTwo]
  · rw [h.1]
    rfl

/-- C7: a signed-in checkout appends exactly one Order (the new one, last)
to the purchaser's history, empties the purchaser's persisted cart in both
Session and Directory, and leaves every other Directory key untouched. -/
theorem C7_checkout_frame (oid odate : String) (dd : DeliveryDetails)
    (s : AppState) (u : User) (db : Db)
    (hu : s.user = some u) (hc : s.cartItems ≠ [])
    (hdb : readDbBlob s.storage.usersDb = some db) :
    ∃ s' u', processOrder oid odate dd s = .ok s' ∧
      s'.user = some u' ∧
      u'.orders = u.orders ++ [mkOrder oid odate s.cartItems dd] ∧
      u'.orders.length = u.orders.length + 1 ∧
      u'.cart = [] ∧
      s'.storage.session = some (Blob.ok u') ∧
      ∃ db', s'.storage.usersDb = some (Blob.ok db') ∧
        lookupKey db' u.email = some u' ∧
        ∀ k, k ≠ u.email → lookupKey db' k = lookupKey db k := by
  have key : processOrder oid odate dd s = .ok
      { s with
        user := some { u with
          orders := u.orders ++ [mkOrder oid odate s.cartItems dd],
          cart := [] },
        cartItems := [],
        isProfileOpen := true,
        isCheckoutOpen := false,
        storage := { s.storage with
          session := some (Blob.ok { u with
            orders := u.orders ++ [mkOrder oid odate s.cartItems dd],
            cart := [] }),
          usersDb := some (Blob.ok (setKey db u.email { u with
            orders := u.orders ++ [mkOrder oid odate s.cartItems dd],
            cart := [] })) } } := by
    simp only [processOrder, if_neg hc, hu, persistUser, hdb]
  refine ⟨_, _, key, rfl, rfl, by simp, rfl, rfl, _, rfl,
    lookupKey_setKey_self db _ _,
    fun k hk => lookupKey_setKey_ne db u.email k _ hk⟩

theorem C7_checkout_frame_witness :
    signedInState.user = some aliceUser ∧
    signedInState.cartItems ≠ [] ∧
    readDbBlob signedInState.storage.usersDb =
      some [("alice@x.com", aliceUser), ("bob@y.com", bobUser)] ∧
    (∃ s' u', processOrder "ORD2" "2026-01-02T00:00:00Z" sampleDelivery
        signedInState = .ok s' ∧
      s'.user = some u' ∧
      u'.orders = aliceUser.orders ++
        [mkOrder "ORD2" "2026-01-02T00:00:00Z" signedInState.cartItems
          sampleDelivery] ∧
      u'.orders.length = aliceUser.orders.length + 1 ∧
      u'.cart = [] ∧
      s'.storage.session = some (Blob.ok u') ∧
      ∃ db', s'.storage.usersDb = some (Blob.ok db') ∧
        lookupKey db' aliceUser.email = some u' ∧
        ∀ k, k ≠ aliceUser.email →
          lookupKey db' k =
            lookupKey [("alice@x.com", aliceUser), ("bob@y.com", bobUser)] k) :=
  ⟨rfl, by simp [signedInState, aliceUser], rfl,
    C7_checkout_frame "ORD2" "2026-01-02T00:00:00Z" sampleDelivery
      signedInState aliceUser [("alice@x.com", aliceUser), ("bob@y.com", bobUser)]
      rfl (by simp [signedInState, aliceUser]) rfl⟩

/-- C9: checkout with an empty live cart is a strict no-op: `processOrder`
returns with the state — including all three stored blobs — unchanged, and
no Order comes into being. -/
theorem C9_empty_cart_noop (oid odate : String) (dd : DeliveryDetails)
    (s : AppState) (h : s.cartItems = []) :
    processOrder oid odate dd s = .ok s := by
  simp [processOrder, h]

/-- A state with an empty live cart but plenty of other data around. -/
def emptyCartState : AppState :=
  { cartItems := [],
    user := some aliceUser,
    storage := { session := some (Blob.ok aliceUser),
                 usersDb := some (Blob.ok [("alice@x.com", aliceUser)]),
                 guestCart := some (Blob.ok [prodOne]) } }

theorem C9_empty_cart_noop_witness :
    emptyCartState.cartItems = [] ∧
    processOrder "ORD3" "2026-01-03T00:00:00Z" sampleDelivery emptyCartState =
      .ok emptyCartState :=
  ⟨rfl, C9_empty_cart_noop "ORD3" "2026-01-03T00:00:00Z" sampleDelivery
    emptyCartState rfl⟩

/-- C10: one `removeFromCart id` call deletes *every* cart entry whose
identifier equals `id` — all `n` implicit-quantity duplicates at once —
and keeps all other entries in their original order. -/
theorem C10_remove_all (pid : String) (s s' : AppState)
    (h : removeFromCart pid s = .ok s') :
    s'.cartItems = s.cartItems.filter (fun item => item.id ≠ pid) ∧
    (∀ item ∈ s'.cartItems, item.id ≠ pid) ∧
    s'.cartItems.countP (fun item => item.id == pid) = 0 := by
  have hcart : s'.cartItems =
      s.cartItems.filter (fun item => item.id ≠ pid) := by
    cases hu : s.user with
    | none =>
        simp only [removeFromCart, hu, Except.ok.injEq] at h
        subst h
        rfl
    | some u =>
        cases hdb : readDbBlob s.storage.usersDb with
        | none => simp [removeFromCart, hu, persistUser, hdb] at h
        | some db =>
            simp only [removeFromCart, hu, persistUser, hdb,
              Except.ok.injEq] at h
            subst h
            rfl
  refine ⟨hcart, ?_, ?_⟩
  · intro item hmem
    rw [hcart] at hmem
    simpa using (List.mem_filter.1 hmem).2
  · rw [hcart, List.countP_eq_zero]
    intro item hmem
    simpa using (List.mem_filter.1 hmem).2

/-- Guest state whose cart holds the same product twice. -/
def dupCartState : AppState :=
  { cartItems := [prodTwo, prodOne, prodTwo],
    storage := { session := none, usersDb := none,
                 guestCart := some (Blob.ok [prodTwo, prodOne, prodTwo]) } }

/-- The state after `removeFromCart "p2" dupCartState`. -/
def afterRemoveState : AppState :=
  { cartItems := [prodOne],
    storage := { session := none, usersDb := none,
                 guestCart := some (Blob.ok [prodOne]) } }

theorem C10_remove_all_witness :
    removeFromCart "p2" dupCartState = .ok afterRemoveState ∧
    afterRemoveState.cartItems =
      dupCartState.cartItems.filter (fun item => item.id ≠ "p2") ∧
    (∀ item ∈ afterRemoveState.cartItems, item.id ≠ "p2") ∧
    afterRemoveState.cartItems.countP (fun item => item.id == "p2") = 0 := by
  have h := C10_remove_all "p2" dupCartState afterRemoveState rfl
  exact ⟨rfl, h.1, h.2.1, h.2.2⟩

/-! ## C8: the Record Codec (`JSON.stringify` / `JSON.parse`)

The textual layer is modelled by a JSON value tree: `JSON.stringify`
prints a tree and `JSON.parse` recovers exactly that tree (or throws on
syntactically invalid text, which is `Blob.corrupt` above).  The
repository-specific content of the codec is the mapping between the typed
records and their JSON trees: optional fields that are absent produce no
key (`JSON.stringify` drops them), and a decoded object defaults each
missing field, per the spec of the Record Codec. -/

inductive Json where
  | null
  | bool (b : Bool)
  | num (q : ℚ)
  | str (s : String)
  | arr (elems : List Json)
  | obj (fields : List (String × Json))

/-- JavaScript property read on a parsed object. -/
def getField : List (String × Json) → String → Option Json
  | [], _ => none
  | (k, v) :: rest, key => if k = key then some v else getField rest key

def getStr (fields : List (String × Json)) (key : String) : Option String :=
  match getField fields key with
  | some (Json.str s) => some s
  | _ => none

def getNum (fields : List (String × Json)) (key : String) : Option ℚ :=
  match getField fields key with
  | some (Json.num q) => some q
  | _ => none

/-- An optional string field: absent values produce no key, as
`JSON.stringify` drops `undefined` properties. -/
def encodeOptStr (key : String) : Option String → List (String × Json)
  | none => []
  | some v => [(key, Json.str v)]

def encodeProduct (p : Product) : Json :=
  Json.obj ([("id", Json.str p.id), ("name", Json.str p.name),
    ("price", Json.num p.price), ("displayPrice", Json.str p.displayPrice),
    ("category", Json.str p.category)]
    ++ encodeOptStr "description" p.description
    ++ encodeOptStr "image" p.image)

def decodeProduct : Json → Option Product
  | Json.obj fields =>
      some { id := (getStr fields "id").getD "",
             name := (getStr fields "name").getD "",
             price := (getNum fields "price").getD 0,
             displayPrice := (getStr fields "displayPrice").getD "",
             category := (getStr fields "category").getD "",
             description := getStr fields "description",
             image := getStr fields "image" }
  | _ => none

def decodeProducts : List Json → Option (List Product)
  | [] => some []
  | j :: rest =>
      match decodeProduct j, decodeProducts rest with
      | some p, some ps => some (p :: ps)
      | _, _ => none

def encodeDelivery (d : DeliveryDetails) : Json :=
  Json.obj [("fullName", Json.str d.fullName), ("email", Json.str d.email),
    ("phone", Json.str d.phone), ("address", Json.str d.address),
    ("city", Json.str d.city), ("zip", Json.str d.zip)]

def decodeDelivery : Json → Option DeliveryDetails
  | Json.obj fields =>
      some { fullName := (getStr fields "fullName").getD "",
             email := (getStr fields "email").getD "",
             phone := (getStr fields "phone").getD "",
             address := (getStr fields "address").getD "",
             city := (getStr fields "city").getD "",
             zip := (getStr fields "zip").getD "" }
  | _ => none

def encodeStatus : OrderStatus → Json
  | OrderStatus.processing => Json.str "processing"
  | OrderStatus.shipped => Json.str "shipped"
  | OrderStatus.delivered => Json.str "delivered"

def decodeStatus : Option String → OrderStatus
  | some "shipped" => OrderStatus.shipped
  | some "delivered" => OrderStatus.delivered
  | _ => OrderStatus.processing

def encodeOrder (o : Order) : Json :=
  Json.obj ([("id", Json.str o.id), ("date", Json.str o.date),
    ("items", Json.arr (o.items.map encodeProduct)),
    ("total", Json.num o.total),
    ("status", encodeStatus o.status)]
    ++ (match o.delivery with
        | none => []
        | some d => [("delivery", encodeDelivery d)]))

def decodeOrder (j : Json) : Option Order :=
  match j with
  | Json.obj fields =>
      some { id := (getStr fields "id").getD "",
             date := (getStr fields "date").getD "",
             items :=
               (match getField fields "items" with
                | some (Json.arr xs) => (decodeProducts xs).getD []
                | _ => []),
             total := (getNum fields "total").getD 0,
             status := decodeStatus (getStr fields "status"),
             delivery :=
               (match getField fields "delivery" with
                | some d => decodeDelivery d
                | none => none) }
  | _ => none

def decodeOrders : List Json → Option (List Order)
  | [] => some []
  | j :: rest =>
      match decodeOrder j, decodeOrders rest with
      | some o, some os => some (o :: os)
      | _, _ => none

def encodeUser (u : User) : Json :=
  Json.obj ([("name", Json.str u.name), ("email", Json.str u.email)]
    ++ encodeOptStr "password" u.password
    ++ [("cart", Json.arr (u.cart.map encodeProduct)),
        ("orders", Json.arr (u.orders.map encodeOrder))])

def decodeUser (j : Json) : Option User :=
  match j with
  | Json.obj fields =>
      some { name := (getStr fields "name").getD "",
             email := (getStr fields "email").getD "",
             password := getStr fields "password",
             cart :=
               (match getField fields "cart" with
                | some (Json.arr xs) => (decodeProducts xs).getD []
                | _ => []),
             orders :=
               (match getField fields "orders" with
                | some (Json.arr xs) => (decodeOrders xs).getD []
                | _ => []) }
  | _ => none

theorem decodeProduct_encode (p : Product) :
    decodeProduct (encodeProduct p) = some p := by
  obtain ⟨i, n, pr, dp, c, d, im⟩ := p
  cases d <;> cases im <;>
    simp [encodeProduct, decodeProduct, encodeOptStr, getStr, getNum,
      getField]

theorem decodeProducts_encode (l : List Product) :
    decodeProducts (l.map encodeProduct) = some l := by
  induction l with
  | nil => rfl
  | cons hd tl ih => simp [decodeProducts, decodeProduct_encode, ih]

theorem decodeDelivery_encode (d : DeliveryDetails) :
    decodeDelivery (encodeDelivery d) = some d := by
  simp [encodeDelivery, decodeDelivery, getStr, getField]

theorem decodeOrder_encode (o : Order) :
    decodeOrder (encodeOrder o) = some o := by
  obtain ⟨i, dt, it, t, st, del⟩ := o
  cases del <;> cases st <;>
    simp [encodeOrder, decodeOrder, encodeStatus, decodeStatus, getStr,
      getNum, getField, decodeProducts_encode, decodeDelivery_encode]

theorem decodeOrders_encode (l : List Order) :
    decodeOrders (l.map encodeOrder) = some l := by
  induction l with
  | nil => rfl
  | cons hd tl ih => simp [decodeOrders, decodeOrder_encode, ih]

/-- C8: the Record Codec round-trip law — encoding any `User` record
(including every combination of absent optional fields) and decoding the
result yields the original record. -/
theorem C8_codec_round_trip (u : User) : decodeUser (encodeUser u) = some u := by
  obtain ⟨n, e, pw, c, os⟩ := u
  cases pw <;>
    simp [encodeUser, decodeUser, encodeOptStr, getStr, getField,
      decodeProducts_encode, decodeOrders_encode]
